import Mathlib

/-!
Shallow embedding of the core of `jenga-ai-solver`:
  - `src/utils.py` (action enumeration, reward function)
  - `src/deep_q_learning/deep_q_agent.py` (`HierarchicalDQNAgent`)

Real-valued quantities of the Python code (floats) are modelled exactly:
plain arithmetic over `ℚ`, and the epsilon schedule (which applies `np.exp`)
over `ℝ`.  Randomness (`random.random`, `random.randrange`, replay
sampling) is modelled by passing the draws / the sampling function
explicitly, so theorems quantify over every possible outcome.  The DQN
network and Adam optimizer live in `src/deep_q_learning/deep_q_network.py`
and in the torch library, both outside `src/`; they are modelled
abstractly (see `TorchModel`).
-/

namespace Jenga

/-- Mapping from integer to color for Jenga blocks (`INT_TO_COLOR` in both
`utils.py` and `deep_q_agent.py`); `none` models a Python `KeyError`. -/
def INT_TO_COLOR : ℕ → Option String
  | 0 => some "y"
  | 1 => some "b"
  | 2 => some "g"
  | _ => none

/-- Python's `random.randrange(a, b)`: a uniform draw from `[a, b)`.  The
draw is represented by an arbitrary seed `x : ℕ`; the support of the
modelled draw is exactly `[a, b)` (for `a < b`), matching `randrange`. -/
def randrange (a b x : ℕ) : ℕ := a + x % (b - a)

/-- `utils.get_possible_actions`: the set comprehension
`{(level, color) for level in range(MAX_LEVEL) for color in range(MAX_BLOCKS_IN_LEVEL)}`
minus `taken_actions`.  `MAX_LEVEL` and `MAX_BLOCKS_IN_LEVEL` come from
`environment.environment` (outside `src/`), hence are parameters.  The
Python result is a list built from a set, i.e. duplicate-free and
unordered: a `Finset`. -/
def get_possible_actions (MAX_LEVEL MAX_BLOCKS_IN_LEVEL : ℕ)
    (taken_actions : Finset (ℕ × ℕ)) : Finset (ℕ × ℕ) :=
  ((Finset.range MAX_LEVEL).biUnion fun level =>
    (Finset.range MAX_BLOCKS_IN_LEVEL).image fun color => (level, color))
    \ taken_actions

/-- `utils.calculate_reward`.  Python truthiness of the float
`previous_stability` is `previous_stability ≠ 0`. -/
def calculate_reward (action : ℕ × String) (is_fallen : Bool)
    (previous_stability current_stability : ℚ) : ℚ :=
  let level := action.1
  let color := action.2
  let base_reward : ℚ := level + (if color = "b" then 1 else 0)
  let stability_penalty : ℚ :=
    if previous_stability ≠ 0 then previous_stability - current_stability
    else -current_stability
  let fall_penalty : ℚ := if is_fallen then -50 else 0
  base_reward + stability_penalty + fall_penalty

/-- First index of the maximum of a value row, accumulator form:
`i` is the index of the next element of `l`, `bi`/`bv` the best index and
value seen so far.  Later strict improvements replace the best, ties keep
the earlier index — `torch.argmax` over a row. -/
def argmaxAux : List ℚ → ℕ → ℕ → ℚ → ℕ
  | [], _, bi, _ => bi
  | q :: rest, i, bi, bv =>
    if bv < q then argmaxAux rest (i + 1) i q else argmaxAux rest (i + 1) bi bv

/-- `tensor.argmax(dim=1).item()` on a single row of Q-values. -/
def argmaxList : List ℚ → ℕ
  | [] => 0
  | q :: rest => argmaxAux rest 1 0 q

/-- `tensor.max(1)[0]` on a single row of Q-values. -/
def listMax : List ℚ → ℚ
  | [] => 0
  | q :: rest => rest.foldl max q

/-- One stored experience, as pushed into `ReplayMemory` and unpacked by
`optimize_model` (`state, action, reward, next_state, done`); the action
carries a level index and a color index (the integers gathered at lines
125-126). -/
structure Transition (S : Type) where
  state : S
  action : ℕ × ℕ
  reward : ℚ
  next_state : S
  done : Bool

/-- Modelled from the spec: the value-approximator and optimizer interface
(spec §6).  `DQN` and the Adam optimizer live in
`src/deep_q_learning/deep_q_network.py` and in torch, outside `src/`.
`forward p s` is the row of action-values the network with parameters `p`
assigns to state `s`; `optStep` is one "zero_grad; loss.backward();
optimizer.step()" cycle: from the optimizer state, the current parameters,
and the data that determines the squared-error loss (batch states, the
gathered action indices, the regression targets) it produces the new
optimizer state and parameters. -/
structure TorchModel (S P O : Type) where
  forward : P → S → List ℚ
  optStep : O → P → List S → List ℕ → List ℚ → O × P

/-- The mutable state of a `HierarchicalDQNAgent` (fields of `__init__`).
`P` is the (opaque) parameter space of a `DQN`, `O` the Adam optimizer
state, `S` the state (preprocessed image tensor) type. -/
structure HierarchicalDQNAgent (S P O : Type) where
  gamma : ℚ
  epsilon : ℝ
  epsilon_end : ℝ
  epsilon_decay : ℝ
  steps_done : ℕ
  policy_net_level_1 : P
  policy_net_level_2 : P
  target_net_level_1 : P
  target_net_level_2 : P
  optimizer_level_1 : O
  optimizer_level_2 : O
  memory : List (Transition S)

/-- `HierarchicalDQNAgent.__init__`.  The four freshly constructed `DQN`s
have (randomly initialised) parameters `p1 p2 t1 t2`; the two
`load_state_dict` calls then overwrite the target parameters with the
policy parameters.  The replay memory starts empty. -/
def initAgent (S P O : Type) (gamma : ℚ)
    (epsilon_start epsilon_end epsilon_decay : ℝ)
    (p1 p2 t1 t2 : P) (o1 o2 : O) : HierarchicalDQNAgent S P O :=
  let agent0 : HierarchicalDQNAgent S P O :=
    { gamma := gamma
      epsilon := epsilon_start
      epsilon_end := epsilon_end
      epsilon_decay := epsilon_decay
      steps_done := 0
      policy_net_level_1 := p1
      policy_net_level_2 := p2
      target_net_level_1 := t1
      target_net_level_2 := t2
      optimizer_level_1 := o1
      optimizer_level_2 := o2
      memory := [] }
  { agent0 with
      target_net_level_1 := agent0.policy_net_level_1
      target_net_level_2 := agent0.policy_net_level_2 }

/-- `HierarchicalDQNAgent.select_action`.  The draws of `random.random()`
(`r`), `random.randrange(0, 9)` (seed `rl`) and `random.randrange(0, 2)`
(seed `rc`) are explicit inputs.  Returns the updated agent and
`some (level, color)`, or `none` for a `KeyError` in `INT_TO_COLOR`. -/
noncomputable def select_action {S P O : Type} (M : TorchModel S P O)
    (A : HierarchicalDQNAgent S P O) (state : S) (r : ℝ) (rl rc : ℕ) :
    HierarchicalDQNAgent S P O × Option (ℕ × String) :=
  let steps_done := A.steps_done + 1
  let epsilon := A.epsilon_end +
    (A.epsilon - A.epsilon_end) * Real.exp (-1 * steps_done / A.epsilon_decay)
  let A' := { A with steps_done := steps_done, epsilon := epsilon }
  if epsilon < r then
    (A', (INT_TO_COLOR (argmaxList (M.forward A.policy_net_level_2 state))).map
      fun color => (argmaxList (M.forward A.policy_net_level_1 state), color))
  else
    (A', (INT_TO_COLOR (randrange 0 2 rc)).map
      fun color => (randrange 0 9 rl, color))

/-- Line 122: `torch.tensor(batch_done, dtype=torch.float32)` — the stored
booleans as exact 0/1 values. -/
def batch_done_of {S : Type} (transitions : List (Transition S)) : List ℚ :=
  transitions.map fun t => if t.done then 1 else 0

/-- Lines 130/133: the per-sample maximum of the target network's values at
the next state (`.max(1)[0].detach()`). -/
def next_q_values_of {S P O : Type} (M : TorchModel S P O) (p : P)
    (transitions : List (Transition S)) : List ℚ :=
  transitions.map fun t => listMax (M.forward p t.next_state)

/-- Elementwise combination of three equal-length batches. -/
def zipWith3 {α β γ δ : Type} (f : α → β → γ → δ) :
    List α → List β → List γ → List δ
  | a :: as, b :: bs, c :: cs => f a b c :: zipWith3 f as bs cs
  | _, _, _ => []

/-- Lines 136-137: the Bellman regression target,
`(next_q * gamma * (1 - done)) + reward` elementwise. -/
def expected_q_values (gamma : ℚ) (next_q batch_done batch_reward : List ℚ) :
    List ℚ :=
  zipWith3 (fun nq d rew => nq * gamma * (1 - d) + rew) next_q batch_done batch_reward

/-- `HierarchicalDQNAgent.optimize_model`.  `sample` models
`ReplayMemory.sample` (uniform sampling without replacement; the random
choice is folded into the function, which is quantified over in the
theorems).  The two losses are built and backpropagated separately, so each
`optStep` receives exactly the data of its own loss. -/
def optimize_model {S P O : Type} (M : TorchModel S P O)
    (sample : List (Transition S) → ℕ → List (Transition S))
    (A : HierarchicalDQNAgent S P O) (batch_size : ℕ) :
    HierarchicalDQNAgent S P O :=
  if A.memory.length < batch_size then A
  else
    let transitions := sample A.memory batch_size
    let batch_state := transitions.map fun t => t.state
    let batch_reward := transitions.map fun t => t.reward
    let batch_done := batch_done_of transitions
    let batch_action_level := transitions.map fun t => t.action.1
    let batch_action_color := transitions.map fun t => t.action.2
    let next_q_values_level_1 := next_q_values_of M A.target_net_level_1 transitions
    let next_q_values_level_2 := next_q_values_of M A.target_net_level_2 transitions
    let expected_q_values_level_1 :=
      expected_q_values A.gamma next_q_values_level_1 batch_done batch_reward
    let expected_q_values_level_2 :=
      expected_q_values A.gamma next_q_values_level_2 batch_done batch_reward
    let step1 := M.optStep A.optimizer_level_1 A.policy_net_level_1
      batch_state batch_action_level expected_q_values_level_1
    let step2 := M.optStep A.optimizer_level_2 A.policy_net_level_2
      batch_state batch_action_color expected_q_values_level_2
    { A with
        optimizer_level_1 := step1.1
        policy_net_level_1 := step1.2
        optimizer_level_2 := step2.1
        policy_net_level_2 := step2.2 }

/-- `HierarchicalDQNAgent.update_target_net`: `load_state_dict` copies the
policy parameters over the target parameters. -/
def update_target_net {S P O : Type} (A : HierarchicalDQNAgent S P O) :
    HierarchicalDQNAgent S P O :=
  { A with
      target_net_level_1 := A.policy_net_level_1
      target_net_level_2 := A.policy_net_level_2 }

/-- The agent state after `n` successive `select_action` calls; the `n`-th
call uses state, `random.random()` and `randrange` seeds `inputs n`. -/
noncomputable def runSelect {S P O : Type} (M : TorchModel S P O)
    (inputs : ℕ → S × ℝ × ℕ × ℕ) (A : HierarchicalDQNAgent S P O) :
    ℕ → HierarchicalDQNAgent S P O
  | 0 => A
  | n + 1 =>
    let B := runSelect M inputs A n
    let inp := inputs n
    (select_action M B inp.1 inp.2.1 inp.2.2.1 inp.2.2.2).1

/-! ### Helper lemmas -/

theorem biUnion_range_eq_product (ML MB : ℕ) :
    ((Finset.range ML).biUnion fun level =>
      (Finset.range MB).image fun color => (level, color)) =
    Finset.range ML ×ˢ Finset.range MB := by
  ext p
  simp only [Finset.mem_biUnion, Finset.mem_image, Finset.mem_product,
    Finset.mem_range]
  constructor
  · rintro ⟨l, hl, c, hc, rfl⟩
    exact ⟨hl, hc⟩
  · rintro ⟨h1, h2⟩
    exact ⟨p.1, h1, p.2, h2, rfl⟩

theorem zipWith3_map_same {α β γ δ ε : Type} (f : β → γ → δ → ε)
    (g1 : α → β) (g2 : α → γ) (g3 : α → δ) (l : List α) :
    zipWith3 f (l.map g1) (l.map g2) (l.map g3) =
      l.map fun x => f (g1 x) (g2 x) (g3 x) := by
  induction l with
  | nil => rfl
  | cons a l ih => simp [zipWith3, ih]

theorem expected_q_values_map {S P O : Type} (M : TorchModel S P O)
    (gamma : ℚ) (tgt : P) (transitions : List (Transition S)) :
    expected_q_values gamma (next_q_values_of M tgt transitions)
      (batch_done_of transitions) (transitions.map fun t => t.reward) =
    transitions.map fun t =>
      t.reward + gamma * listMax (M.forward tgt t.next_state) *
        (1 - if t.done then 1 else 0) := by
  rw [expected_q_values, next_q_values_of, batch_done_of, zipWith3_map_same]
  refine List.map_congr_left fun t _ => by ring

theorem expected_q_values_all_done {S P O : Type} (M : TorchModel S P O)
    (gamma : ℚ) (tgt : P) (transitions : List (Transition S))
    (h : ∀ t ∈ transitions, t.done = true) :
    expected_q_values gamma (next_q_values_of M tgt transitions)
      (batch_done_of transitions) (transitions.map fun t => t.reward) =
    transitions.map fun t => t.reward := by
  rw [expected_q_values_map]
  refine List.map_congr_left fun t ht => by rw [h t ht]; simp

/-! ### Theorems for the claims -/

/-- C7: `calculate_reward` is `base_reward + stability_penalty +
fall_penalty` with `base_reward = level + (1 if color = "b" else 0)`,
`stability_penalty = previous - current` when the previous stability is
truthy and `-current` otherwise (a previous stability of exactly 0 takes
the fallback branch), `fall_penalty = -50` iff the tower fell; in
particular `calculate_reward((3,"b"), False, 0.8, 0.6) = 4.2` and
`calculate_reward((0,"y"), True, 0.5, 0.9) = -50.4`. -/
theorem calculate_reward_spec :
    (∀ (level : ℕ) (color : String) (is_fallen : Bool) (ps cs : ℚ),
      calculate_reward (level, color) is_fallen ps cs =
        ((level : ℚ) + (if color = "b" then 1 else 0)) +
          (if ps ≠ 0 then ps - cs else -cs) +
          (if is_fallen then -50 else 0)) ∧
    (∀ (level : ℕ) (color : String) (is_fallen : Bool) (cs : ℚ),
      calculate_reward (level, color) is_fallen 0 cs =
        ((level : ℚ) + (if color = "b" then 1 else 0)) + -cs +
          (if is_fallen then -50 else 0)) ∧
    calculate_reward (3, "b") false 0.8 0.6 = 4.2 ∧
    calculate_reward (0, "y") true 0.5 0.9 = -50.4 := by
  refine ⟨fun level color is_fallen ps cs => rfl,
    fun level color is_fallen cs => by simp [calculate_reward], ?_, ?_⟩
  · rw [calculate_reward]
    norm_num
  · rw [calculate_reward]
    rw [if_neg (by decide : ¬("y" = "b"))]
    norm_num

/-- C9: `get_possible_actions` returns exactly the set difference of the
full cross-product `{0..MAX_LEVEL-1} × {0..MAX_BLOCKS_IN_LEVEL-1}` and
`taken_actions` (a duplicate-free `Finset`); with the full action space
taken it is empty, and with nothing taken it has exactly
`MAX_LEVEL * MAX_BLOCKS_IN_LEVEL` pairs. -/
theorem get_possible_actions_spec (ML MB : ℕ) (taken_actions : Finset (ℕ × ℕ)) :
    get_possible_actions ML MB taken_actions =
      (Finset.range ML ×ˢ Finset.range MB) \ taken_actions ∧
    get_possible_actions ML MB (Finset.range ML ×ˢ Finset.range MB) = ∅ ∧
    (get_possible_actions ML MB ∅).card = ML * MB := by
  refine ⟨?_, ?_, ?_⟩
  · rw [get_possible_actions, biUnion_range_eq_product]
  · rw [get_possible_actions, biUnion_range_eq_product, Finset.sdiff_self]
  · rw [get_possible_actions, biUnion_range_eq_product, Finset.sdiff_empty,
      Finset.card_product, Finset.card_range, Finset.card_range]

/-- C5: when the replay memory holds fewer than `batch_size` transitions,
`optimize_model` is a no-op: the whole agent state — in particular both
policy networks, both target networks, both optimizer states and the
replay memory — is returned unchanged. -/
theorem optimize_model_noop {S P O : Type} (M : TorchModel S P O)
    (sample : List (Transition S) → ℕ → List (Transition S))
    (A : HierarchicalDQNAgent S P O) (batch_size : ℕ)
    (h : A.memory.length < batch_size) :
    optimize_model M sample A batch_size = A ∧
    (optimize_model M sample A batch_size).policy_net_level_1 =
      A.policy_net_level_1 ∧
    (optimize_model M sample A batch_size).policy_net_level_2 =
      A.policy_net_level_2 ∧
    (optimize_model M sample A batch_size).target_net_level_1 =
      A.target_net_level_1 ∧
    (optimize_model M sample A batch_size).target_net_level_2 =
      A.target_net_level_2 ∧
    (optimize_model M sample A batch_size).memory = A.memory := by
  have hA : optimize_model M sample A batch_size = A := by
    rw [optimize_model, if_pos h]
  exact ⟨hA, by rw [hA], by rw [hA], by rw [hA], by rw [hA], by rw [hA]⟩

/-- A concrete trivial torch interface, used to instantiate theorems with
hypotheses at concrete inputs. -/
def trivialModel : TorchModel Unit Unit Unit :=
  { forward := fun _ _ => [0]
    optStep := fun o p _ _ _ => (o, p) }

/-- A concrete agent with the given epsilon data and replay memory. -/
def unitAgent (eps eps_end eps_decay : ℝ) (mem : List (Transition Unit)) :
    HierarchicalDQNAgent Unit Unit Unit :=
  ⟨0, eps, eps_end, eps_decay, 0, (), (), (), (), (), (), mem⟩

theorem optimize_model_noop_witness :
    (unitAgent 1 0 1 []).memory.length < 1 ∧
    optimize_model trivialModel (fun m _ => m) (unitAgent 1 0 1 []) 1 =
      unitAgent 1 0 1 [] :=
  ⟨Nat.zero_lt_one,
    (optimize_model_noop trivialModel (fun m _ => m) (unitAgent 1 0 1 []) 1
      Nat.zero_lt_one).1⟩

/-- C8: after `update_target_net`, each target network's parameters equal
the corresponding policy network's parameters, so the target-network
outputs match the policy-network outputs on every state. -/
theorem update_target_net_spec {S P O : Type} (M : TorchModel S P O)
    (A : HierarchicalDQNAgent S P O) :
    (update_target_net A).target_net_level_1 = A.policy_net_level_1 ∧
    (update_target_net A).target_net_level_2 = A.policy_net_level_2 ∧
    ∀ s : S,
      M.forward (update_target_net A).target_net_level_1 s =
        M.forward A.policy_net_level_1 s ∧
      M.forward (update_target_net A).target_net_level_2 s =
        M.forward A.policy_net_level_2 s :=
  ⟨rfl, rfl, fun _ => ⟨rfl, rfl⟩⟩

/-- C10: immediately after `__init__`, each target network's parameters
equal the corresponding policy network's parameters (the random target
initialisations are overwritten by `load_state_dict`), so target and
policy outputs agree on every state before any training step. -/
theorem initAgent_target_eq_policy (S P O : Type) (M : TorchModel S P O)
    (gamma : ℚ) (epsilon_start epsilon_end epsilon_decay : ℝ)
    (p1 p2 t1 t2 : P) (o1 o2 : O) :
    (initAgent S P O gamma epsilon_start epsilon_end epsilon_decay
        p1 p2 t1 t2 o1 o2).target_net_level_1 =
      (initAgent S P O gamma epsilon_start epsilon_end epsilon_decay
        p1 p2 t1 t2 o1 o2).policy_net_level_1 ∧
    (initAgent S P O gamma epsilon_start epsilon_end epsilon_decay
        p1 p2 t1 t2 o1 o2).target_net_level_2 =
      (initAgent S P O gamma epsilon_start epsilon_end epsilon_decay
        p1 p2 t1 t2 o1 o2).policy_net_level_2 ∧
    ∀ s : S,
      M.forward (initAgent S P O gamma epsilon_start epsilon_end epsilon_decay
        p1 p2 t1 t2 o1 o2).target_net_level_1 s =
      M.forward (initAgent S P O gamma epsilon_start epsilon_end epsilon_decay
        p1 p2 t1 t2 o1 o2).policy_net_level_1 s ∧
      M.forward (initAgent S P O gamma epsilon_start epsilon_end epsilon_decay
        p1 p2 t1 t2 o1 o2).target_net_level_2 s =
      M.forward (initAgent S P O gamma epsilon_start epsilon_end epsilon_decay
        p1 p2 t1 t2 o1 o2).policy_net_level_2 s :=
  ⟨rfl, rfl, fun _ => ⟨rfl, rfl⟩⟩

/-- C1: in `optimize_model` the Bellman regression target of each sampled
transition equals `reward + gamma * next_q * (1 - done)` where `next_q` is
the maximum target-network value at the next state, for the level and the
color sub-problem alike; when every done-flag of the batch is 1, the
targets are exactly the batch rewards (the continuation term is
masked). -/
theorem optimize_model_bellman_target {S P O : Type} (M : TorchModel S P O)
    (sample : List (Transition S) → ℕ → List (Transition S))
    (A : HierarchicalDQNAgent S P O) (batch_size : ℕ) :
    (expected_q_values A.gamma
        (next_q_values_of M A.target_net_level_1 (sample A.memory batch_size))
        (batch_done_of (sample A.memory batch_size))
        ((sample A.memory batch_size).map fun t => t.reward) =
      (sample A.memory batch_size).map fun t =>
        t.reward + A.gamma * listMax (M.forward A.target_net_level_1 t.next_state) *
          (1 - if t.done then 1 else 0)) ∧
    (expected_q_values A.gamma
        (next_q_values_of M A.target_net_level_2 (sample A.memory batch_size))
        (batch_done_of (sample A.memory batch_size))
        ((sample A.memory batch_size).map fun t => t.reward) =
      (sample A.memory batch_size).map fun t =>
        t.reward + A.gamma * listMax (M.forward A.target_net_level_2 t.next_state) *
          (1 - if t.done then 1 else 0)) ∧
    ((∀ t ∈ sample A.memory batch_size, t.done = true) →
      expected_q_values A.gamma
        (next_q_values_of M A.target_net_level_1 (sample A.memory batch_size))
        (batch_done_of (sample A.memory batch_size))
        ((sample A.memory batch_size).map fun t => t.reward) =
        (sample A.memory batch_size).map (fun t => t.reward) ∧
      expected_q_values A.gamma
        (next_q_values_of M A.target_net_level_2 (sample A.memory batch_size))
        (batch_done_of (sample A.memory batch_size))
        ((sample A.memory batch_size).map fun t => t.reward) =
        (sample A.memory batch_size).map fun t => t.reward) :=
  ⟨expected_q_values_map M A.gamma A.target_net_level_1 _,
   expected_q_values_map M A.gamma A.target_net_level_2 _,
   fun h => ⟨expected_q_values_all_done M A.gamma A.target_net_level_1 _ h,
     expected_q_values_all_done M A.gamma A.target_net_level_2 _ h⟩⟩

/-- A concrete terminal transition for witnesses. -/
def doneTransition : Transition Unit :=
  { state := (), action := (0, 0), reward := 7, next_state := (), done := true }

theorem optimize_model_bellman_target_witness :
    (∀ t ∈ (fun (m : List (Transition Unit)) (_ : ℕ) => m)
        (unitAgent 1 0 1 [doneTransition]).memory 1, t.done = true) ∧
    expected_q_values (unitAgent 1 0 1 [doneTransition]).gamma
      (next_q_values_of trivialModel
        (unitAgent 1 0 1 [doneTransition]).target_net_level_1
        ((fun (m : List (Transition Unit)) (_ : ℕ) => m)
          (unitAgent 1 0 1 [doneTransition]).memory 1))
      (batch_done_of ((fun (m : List (Transition Unit)) (_ : ℕ) => m)
        (unitAgent 1 0 1 [doneTransition]).memory 1))
      (((fun (m : List (Transition Unit)) (_ : ℕ) => m)
        (unitAgent 1 0 1 [doneTransition]).memory 1).map fun t => t.reward) =
      ((fun (m : List (Transition Unit)) (_ : ℕ) => m)
        (unitAgent 1 0 1 [doneTransition]).memory 1).map fun t => t.reward :=
  ⟨fun t ht => by
      simp only [unitAgent, doneTransition, List.mem_singleton] at ht
      rw [ht],
    ((optimize_model_bellman_target trivialModel
      (fun m _ => m) (unitAgent 1 0 1 [doneTransition]) 1).2.2
      (fun t ht => by
        simp only [unitAgent, doneTransition, List.mem_singleton] at ht
        rw [ht])).1⟩

/-- C6: the two gradient updates of one `optimize_model` step are
independent: the new parameters and optimizer state of
`policy_net_level_1` are determined by the level-side data alone (replay
memory, gamma, level policy/target/optimizer), and symmetrically for
`policy_net_level_2`; the two losses are never combined, so the color-side
state has no effect on the level network and vice versa. -/
theorem optimize_model_independent {S P O : Type} (M : TorchModel S P O)
    (sample : List (Transition S) → ℕ → List (Transition S)) (batch_size : ℕ)
    (A B : HierarchicalDQNAgent S P O)
    (hmem : A.memory = B.memory) (hg : A.gamma = B.gamma) :
    (A.policy_net_level_1 = B.policy_net_level_1 →
      A.target_net_level_1 = B.target_net_level_1 →
      A.optimizer_level_1 = B.optimizer_level_1 →
      (optimize_model M sample A batch_size).policy_net_level_1 =
        (optimize_model M sample B batch_size).policy_net_level_1 ∧
      (optimize_model M sample A batch_size).optimizer_level_1 =
        (optimize_model M sample B batch_size).optimizer_level_1) ∧
    (A.policy_net_level_2 = B.policy_net_level_2 →
      A.target_net_level_2 = B.target_net_level_2 →
      A.optimizer_level_2 = B.optimizer_level_2 →
      (optimize_model M sample A batch_size).policy_net_level_2 =
        (optimize_model M sample B batch_size).policy_net_level_2 ∧
      (optimize_model M sample A batch_size).optimizer_level_2 =
        (optimize_model M sample B batch_size).optimizer_level_2) := by
  by_cases h : B.memory.length < batch_size
  · have hA : A.memory.length < batch_size := by rw [hmem]; exact h
    rw [optimize_model, if_pos hA, optimize_model, if_pos h]
    exact ⟨fun h1 _ h3 => ⟨h1, h3⟩, fun h1 _ h3 => ⟨h1, h3⟩⟩
  · have hA : ¬A.memory.length < batch_size := by rw [hmem]; exact h
    rw [optimize_model, if_neg hA, optimize_model, if_neg h]
    constructor
    · intro h1 h2 h3
      simp only [hmem, hg, h1, h2, h3]
      exact ⟨trivial, trivial⟩
    · intro h1 h2 h3
      simp only [hmem, hg, h1, h2, h3]
      exact ⟨trivial, trivial⟩

theorem optimize_model_independent_witness :
    (unitAgent 1 0 1 []).memory = (unitAgent 2 0 1 []).memory ∧
    (unitAgent 1 0 1 []).gamma = (unitAgent 2 0 1 []).gamma ∧
    (optimize_model trivialModel (fun m _ => m) (unitAgent 1 0 1 []) 1).policy_net_level_1 =
      (optimize_model trivialModel (fun m _ => m) (unitAgent 2 0 1 []) 1).policy_net_level_1 :=
  ⟨rfl, rfl,
    ((optimize_model_independent trivialModel (fun m _ => m) 1
      (unitAgent 1 0 1 []) (unitAgent 2 0 1 []) rfl rfl).1 rfl rfl rfl).1⟩

theorem select_action_fst {S P O : Type} (M : TorchModel S P O)
    (A : HierarchicalDQNAgent S P O) (state : S) (r : ℝ) (rl rc : ℕ) :
    (select_action M A state r rl rc).1 =
      { A with
          steps_done := A.steps_done + 1
          epsilon := A.epsilon_end + (A.epsilon - A.epsilon_end) *
            Real.exp (-1 * ((A.steps_done + 1 : ℕ) : ℝ) / A.epsilon_decay) } := by
  rw [select_action]
  split <;> rfl

theorem epsStep_between (e eend d : ℝ) (k : ℕ) (he : eend < e) (hd : 0 < d) :
    eend < eend + (e - eend) * Real.exp (-1 * ((k + 1 : ℕ) : ℝ) / d) ∧
    eend + (e - eend) * Real.exp (-1 * ((k + 1 : ℕ) : ℝ) / d) < e := by
  have hpos : (0:ℝ) < e - eend := sub_pos.mpr he
  have hexp_pos : 0 < Real.exp (-1 * ((k + 1 : ℕ) : ℝ) / d) := Real.exp_pos _
  have harg : -1 * ((k + 1 : ℕ) : ℝ) / d < 0 := by
    apply div_neg_of_neg_of_pos _ hd
    have hk : (0:ℝ) < ((k + 1 : ℕ) : ℝ) := by
      exact_mod_cast Nat.succ_pos k
    linarith
  have hexp_lt : Real.exp (-1 * ((k + 1 : ℕ) : ℝ) / d) < 1 :=
    Real.exp_lt_one_iff.mpr harg
  constructor
  · nlinarith
  · nlinarith

theorem runSelect_succ {S P O : Type} (M : TorchModel S P O)
    (inputs : ℕ → S × ℝ × ℕ × ℕ) (A : HierarchicalDQNAgent S P O) (n : ℕ) :
    runSelect M inputs A (n + 1) =
      (select_action M (runSelect M inputs A n) (inputs n).1 (inputs n).2.1
        (inputs n).2.2.1 (inputs n).2.2.2).1 :=
  rfl

theorem runSelect_invariant {S P O : Type} (M : TorchModel S P O)
    (inputs : ℕ → S × ℝ × ℕ × ℕ) (A : HierarchicalDQNAgent S P O)
    (hstart : A.epsilon_end < A.epsilon) (hdecay : 0 < A.epsilon_decay) :
    ∀ n : ℕ,
      (runSelect M inputs A n).epsilon_end = A.epsilon_end ∧
      (runSelect M inputs A n).epsilon_decay = A.epsilon_decay ∧
      (runSelect M inputs A n).steps_done = A.steps_done + n ∧
      A.epsilon_end < (runSelect M inputs A n).epsilon := by
  intro n
  induction n with
  | zero => exact ⟨rfl, rfl, (Nat.add_zero _).symm, hstart⟩
  | succ n ih =>
    obtain ⟨hend, hdec, hsteps, hlt⟩ := ih
    rw [runSelect_succ, select_action_fst]
    refine ⟨hend, hdec, by rw [hsteps, Nat.add_assoc], ?_⟩
    rw [hend, hdec, hsteps]
    exact (epsStep_between _ _ _ (A.steps_done + n) hlt hdecay).1

/-- C2: along any sequence of `select_action` calls on one agent with
`epsilon_start > epsilon_end` (and a positive decay constant), every call
strictly decreases the stored epsilon, epsilon stays strictly above
`epsilon_end` (and so never rises above its previous value), `steps_done`
grows by exactly one per call, and each new epsilon is obtained by the
recurrence `epsilon_end + (epsilon_prev - epsilon_end) *
exp(-steps_done / epsilon_decay)` from the previous epsilon. -/
theorem select_action_epsilon_schedule {S P O : Type} (M : TorchModel S P O)
    (inputs : ℕ → S × ℝ × ℕ × ℕ) (A : HierarchicalDQNAgent S P O)
    (hstart : A.epsilon_end < A.epsilon) (hdecay : 0 < A.epsilon_decay)
    (n : ℕ) :
    (runSelect M inputs A (n + 1)).epsilon < (runSelect M inputs A n).epsilon ∧
    A.epsilon_end < (runSelect M inputs A n).epsilon ∧
    (runSelect M inputs A n).steps_done = A.steps_done + n ∧
    (runSelect M inputs A (n + 1)).steps_done =
      (runSelect M inputs A n).steps_done + 1 ∧
    (runSelect M inputs A (n + 1)).epsilon =
      A.epsilon_end + ((runSelect M inputs A n).epsilon - A.epsilon_end) *
        Real.exp (-1 * (((runSelect M inputs A n).steps_done + 1 : ℕ) : ℝ) /
          A.epsilon_decay) := by
  obtain ⟨hend, hdec, hsteps, hlt⟩ := runSelect_invariant M inputs A hstart hdecay n
  have hfst := select_action_fst M (runSelect M inputs A n) (inputs n).1
    (inputs n).2.1 (inputs n).2.2.1 (inputs n).2.2.2
  rw [runSelect_succ, hfst]
  refine ⟨?_, hlt, hsteps, rfl, by rw [hend, hdec]⟩
  rw [hend, hdec, hsteps]
  exact (epsStep_between _ _ _ (A.steps_done + n) hlt hdecay).2

theorem select_action_epsilon_schedule_witness :
    (unitAgent 1 0 1 []).epsilon_end < (unitAgent 1 0 1 []).epsilon ∧
    (0:ℝ) < (unitAgent 1 0 1 []).epsilon_decay ∧
    ((runSelect trivialModel (fun _ => ((), 0, 0, 0)) (unitAgent 1 0 1 []) 1).epsilon <
      (runSelect trivialModel (fun _ => ((), 0, 0, 0)) (unitAgent 1 0 1 []) 0).epsilon ∧
    (unitAgent 1 0 1 []).epsilon_end <
      (runSelect trivialModel (fun _ => ((), 0, 0, 0)) (unitAgent 1 0 1 []) 0).epsilon ∧
    (runSelect trivialModel (fun _ => ((), 0, 0, 0)) (unitAgent 1 0 1 []) 0).steps_done =
      (unitAgent 1 0 1 []).steps_done + 0 ∧
    (runSelect trivialModel (fun _ => ((), 0, 0, 0)) (unitAgent 1 0 1 []) 1).steps_done =
      (runSelect trivialModel (fun _ => ((), 0, 0, 0)) (unitAgent 1 0 1 []) 0).steps_done + 1 ∧
    (runSelect trivialModel (fun _ => ((), 0, 0, 0)) (unitAgent 1 0 1 []) 1).epsilon =
      (unitAgent 1 0 1 []).epsilon_end +
        ((runSelect trivialModel (fun _ => ((), 0, 0, 0)) (unitAgent 1 0 1 []) 0).epsilon -
          (unitAgent 1 0 1 []).epsilon_end) *
        Real.exp (-1 *
          (((runSelect trivialModel (fun _ => ((), 0, 0, 0)) (unitAgent 1 0 1 []) 0).steps_done + 1 : ℕ) : ℝ) /
          (unitAgent 1 0 1 []).epsilon_decay)) :=
  ⟨zero_lt_one, zero_lt_one,
    select_action_epsilon_schedule trivialModel (fun _ => ((), 0, 0, 0))
      (unitAgent 1 0 1 []) zero_lt_one zero_lt_one 0⟩

theorem argmaxAux_lt (l : List ℚ) :
    ∀ (i bi : ℕ) (bv : ℚ), bi < i → argmaxAux l i bi bv < i + l.length := by
  induction l with
  | nil => intro i bi bv h; simpa [argmaxAux] using h
  | cons q rest ih =>
    intro i bi bv h
    rw [argmaxAux]
    split
    · have := ih (i + 1) i q (Nat.lt_succ_self i)
      simpa [Nat.add_assoc, Nat.add_comm 1 rest.length] using this
    · have := ih (i + 1) bi bv (Nat.lt_succ_of_lt h)
      simpa [Nat.add_assoc, Nat.add_comm 1 rest.length] using this

theorem argmaxList_lt (l : List ℚ) (h : l ≠ []) : argmaxList l < l.length := by
  match l, h with
  | q :: rest, _ =>
    have := argmaxAux_lt rest 1 0 q Nat.zero_lt_one
    simpa [argmaxList, Nat.add_comm 1 rest.length] using this

theorem INT_TO_COLOR_of_lt_three (n : ℕ) (h : n < 3) :
    INT_TO_COLOR n = some "y" ∨ INT_TO_COLOR n = some "b" ∨
    INT_TO_COLOR n = some "g" := by
  interval_cases n
  · exact Or.inl rfl
  · exact Or.inr (Or.inl rfl)
  · exact Or.inr (Or.inr rfl)

theorem select_action_exploit {S P O : Type} (M : TorchModel S P O)
    (A : HierarchicalDQNAgent S P O) (state : S) (r : ℝ) (rl rc : ℕ)
    (h : A.epsilon_end + (A.epsilon - A.epsilon_end) *
      Real.exp (-1 * ((A.steps_done + 1 : ℕ) : ℝ) / A.epsilon_decay) < r) :
    (select_action M A state r rl rc).2 =
      (INT_TO_COLOR (argmaxList (M.forward A.policy_net_level_2 state))).map
        fun color => (argmaxList (M.forward A.policy_net_level_1 state), color) := by
  simp only [select_action]
  rw [if_pos h]

theorem select_action_explore {S P O : Type} (M : TorchModel S P O)
    (A : HierarchicalDQNAgent S P O) (state : S) (r : ℝ) (rl rc : ℕ)
    (h : ¬(A.epsilon_end + (A.epsilon - A.epsilon_end) *
      Real.exp (-1 * ((A.steps_done + 1 : ℕ) : ℝ) / A.epsilon_decay) < r)) :
    (select_action M A state r rl rc).2 =
      (INT_TO_COLOR (randrange 0 2 rc)).map
        fun color => (randrange 0 9 rl, color) := by
  simp only [select_action]
  rw [if_neg h]

/-- C3 as stated is false: the explore branch draws the level from the
hardcoded range `randrange(0, 9)`, ignoring `num_actions_level_1`.  With a
policy network of output dimension 1 (so `num_actions_level_1 = 1`) and an
explore draw of 5, `select_action` returns level 5, outside `[0, 1)`. -/
theorem select_action_level_range_cex :
    (trivialModel.forward (unitAgent 1 0 1 []).policy_net_level_1 ()).length = 1 ∧
    (select_action trivialModel (unitAgent 1 0 1 []) () 0 5 0).2 = some (5, "y") ∧
    ¬(5 < (trivialModel.forward (unitAgent 1 0 1 []).policy_net_level_1 ()).length) := by
  have hbr : ¬((unitAgent 1 0 1 []).epsilon_end +
      ((unitAgent 1 0 1 []).epsilon - (unitAgent 1 0 1 []).epsilon_end) *
        Real.exp (-1 * (((unitAgent 1 0 1 []).steps_done + 1 : ℕ) : ℝ) /
          (unitAgent 1 0 1 []).epsilon_decay) < (0 : ℝ)) := by
    rw [not_lt]
    have hexp := (Real.exp_pos (-1 * (((unitAgent 1 0 1 []).steps_done + 1 : ℕ) : ℝ) /
      (unitAgent 1 0 1 []).epsilon_decay)).le
    simp only [unitAgent] at hexp ⊢
    nlinarith
  refine ⟨rfl, ?_, by decide⟩
  rw [select_action_explore trivialModel (unitAgent 1 0 1 []) () 0 5 0 hbr]
  rfl

/-- C3 (amended): `select_action` always returns a level in
`[0, num_actions_level_1)` and a color in `{"y","b","g"}` provided
`num_actions_level_1 ≥ 9` (the explore branch draws its level from the
hardcoded range `[0, 9)`) and `0 < num_actions_level_2 ≤ 3`. -/
theorem select_action_action_bounds {S P O : Type} (M : TorchModel S P O)
    (A : HierarchicalDQNAgent S P O) (state : S) (r : ℝ) (rl rc : ℕ)
    (num1 num2 : ℕ)
    (hlen1 : (M.forward A.policy_net_level_1 state).length = num1)
    (h9 : 9 ≤ num1)
    (hlen2 : (M.forward A.policy_net_level_2 state).length = num2)
    (hpos2 : 0 < num2) (hle2 : num2 ≤ 3) :
    ∃ level color,
      (select_action M A state r rl rc).2 = some (level, color) ∧
      level < num1 ∧ (color = "y" ∨ color = "b" ∨ color = "g") := by
  by_cases hbr : A.epsilon_end + (A.epsilon - A.epsilon_end) *
      Real.exp (-1 * ((A.steps_done + 1 : ℕ) : ℝ) / A.epsilon_decay) < r
  · rw [select_action_exploit M A state r rl rc hbr]
    have hne2 : M.forward A.policy_net_level_2 state ≠ [] := by
      intro hnil
      rw [hnil] at hlen2
      exact absurd (hlen2.symm.trans rfl) (Nat.pos_iff_ne_zero.mp hpos2)
    have hidx2 : argmaxList (M.forward A.policy_net_level_2 state) < 3 :=
      lt_of_lt_of_le (hlen2 ▸ argmaxList_lt _ hne2) hle2
    have hne1 : M.forward A.policy_net_level_1 state ≠ [] := by
      intro hnil
      rw [hnil] at hlen1
      have h0 : num1 = 0 := hlen1.symm
      omega
    have hidx1 : argmaxList (M.forward A.policy_net_level_1 state) < num1 :=
      hlen1 ▸ argmaxList_lt _ hne1
    rcases INT_TO_COLOR_of_lt_three _ hidx2 with hc | hc | hc <;>
      exact ⟨_, _, by rw [hc]; rfl, hidx1, by simp⟩
  · rw [select_action_explore M A state r rl rc hbr]
    have hlvl : randrange 0 9 rl < num1 := by
      have : rl % 9 < 9 := Nat.mod_lt rl (by omega)
      simp only [randrange]
      omega
    have hcol : randrange 0 2 rc < 3 := by
      have : rc % 2 < 2 := Nat.mod_lt rc (by omega)
      simp only [randrange]
      omega
    rcases INT_TO_COLOR_of_lt_three _ hcol with hc | hc | hc <;>
      exact ⟨_, _, by rw [hc]; rfl, hlvl, by simp⟩

/-- A model whose two networks (parameters `true` / `false`) output value
rows of lengths 9 and 3, the intended Jenga configuration. -/
def boolModel : TorchModel Unit Bool Unit :=
  { forward := fun p _ => cond p (List.replicate 9 (0 : ℚ)) [0, 0, 0]
    optStep := fun o p _ _ _ => (o, p) }

/-- An agent whose level networks are `true` and color networks `false`. -/
def boolAgent : HierarchicalDQNAgent Unit Bool Unit :=
  ⟨0, 1, 0, 1, 0, true, false, true, false, (), (), []⟩

theorem select_action_action_bounds_witness :
    (boolModel.forward boolAgent.policy_net_level_1 ()).length = 9 ∧
    9 ≤ 9 ∧
    (boolModel.forward boolAgent.policy_net_level_2 ()).length = 3 ∧
    0 < 3 ∧ 3 ≤ 3 ∧
    ∃ level color,
      (select_action boolModel boolAgent () 0 5 0).2 = some (level, color) ∧
      level < 9 ∧ (color = "y" ∨ color = "b" ∨ color = "g") :=
  ⟨rfl, Nat.le_refl 9, rfl, Nat.zero_lt_succ 2, Nat.le_refl 3,
    select_action_action_bounds boolModel boolAgent () 0 5 0 9 3 rfl
      (Nat.le_refl 9) rfl (Nat.zero_lt_succ 2) (Nat.le_refl 3)⟩

/-- C4: the explore branch is not uniform over the legal color range: the
color is drawn by `randrange(0, 2)`, whose support is `{0, 1}`, so the
draw never yields index 2 and `select_action` never explores a green
block; every explore color is `"y"` or `"b"`. -/
theorem explore_color_never_green (rc : ℕ) :
    randrange 0 2 rc ≠ 2 ∧
    (INT_TO_COLOR (randrange 0 2 rc) = some "y" ∨
      INT_TO_COLOR (randrange 0 2 rc) = some "b") ∧
    INT_TO_COLOR (randrange 0 2 rc) ≠ some "g" := by
  have h : randrange 0 2 rc = rc % 2 := by simp [randrange]
  rcases Nat.mod_two_eq_zero_or_one rc with h2 | h2 <;> rw [h, h2]
  · exact ⟨by decide, Or.inl rfl, by decide⟩
  · exact ⟨by decide, Or.inr rfl, by decide⟩

end Jenga
